import Mathlib

/-!
Shallow embedding of the OBEX client transfer engine
(src/obexd/client/transfer.c) and verification of its specification.

Bytes are modelled as `Nat`, buffers as the list of valid bytes
`buffer[0..filled)` (so `filled` is the list length), machine `gint`
values that can be negative (file descriptors, error codes, write
returns) as `Int`.  Each continuation callback of the C code becomes a
pure step function taking the transport's behaviour (the outcome of
`gw_obex_xfer_read`, `gw_obex_xfer_write`, ... at that step) as
explicit input and returning the new transfer state together with the
externally observable actions (callback deliveries, transport
requests).
-/

namespace ObexTransfer

/-- Linux errno values used by transfer.c. -/
def EALREADY : Int := 114

def ENOTCONN : Int := 107

def ECANCELED : Int := 125

def EACCES : Int := 13

/-- DEFAULT_BUFFER_SIZE from transfer.c. -/
def DEFAULT_BUFFER_SIZE : Nat := 4096

/-- A callback delivery: the (`transferred`, `err`) pair handed to
`callback->func`.  (The first component is the second argument of the C
callback, which is `transfer->transferred` for every strategy except the
listing one, where it is `transfer->size`.) -/
structure CbEvent where
  count : Nat
  err : Int
  deriving Repr, DecidableEq

/-- The fields of `struct transfer_data` that the lifecycle entry points
(`transfer_get`, `transfer_put`, `transfer_abort`) and the plain-file GET
continuation read or write.  `pending` is the valid region
`buffer[0..filled)`; `bufferNonNull` mirrors whether `transfer->buffer`
is a non-NULL pointer (used by `transfer_put` to select the strategy). -/
structure TransferData where
  xfer : Option Nat
  callbackSet : Bool
  bufferNonNull : Bool
  buffer_len : Nat
  pending : List Nat
  size : Nat
  transferred : Nat
  fd : Int
  err : Int
  isListingType : Bool
  deriving Repr, DecidableEq

/-- `filled` is the length of the valid region. -/
def TransferData.filled (t : TransferData) : Nat := t.pending.length

/-- Result of `transfer_abort`: the new state, the callback deliveries it
performed, and whether it tore the transport handle down
(`gw_obex_xfer_abort` + `gw_obex_xfer_free`). -/
structure AbortResult where
  state : TransferData
  events : List CbEvent
  toreDown : Bool
  deriving Repr, DecidableEq

/-- transfer.c `transfer_abort` (lines 494-508): if `transfer->xfer` is
NULL return immediately; otherwise abort and free the exchange, clear
the handle, and invoke the registered callback (if any) with the current
`transferred` and `-ECANCELED`. -/
def transfer_abort (t : TransferData) : AbortResult :=
  match t.xfer with
  | none => ⟨t, [], false⟩
  | some _ =>
      ⟨{ t with xfer := none },
        if t.callbackSet then [⟨t.transferred, -ECANCELED⟩] else [],
        true⟩

/-- Outcome of `gw_obex_xfer_read` at one continuation: either the call
fails with an error code, or it succeeds delivering `chunk` (so `bread =
chunk.length`; the transport never delivers more than the `bsize` it was
offered, which theorems state as a hypothesis where it matters). -/
inductive ReadResult where
  | ok (chunk : List Nat)
  | fail (e : Int)
  deriving Repr, DecidableEq

/-- Which exit of `get_xfer_progress` was taken. -/
inductive GetExit where
  | readError
  | writeError
  | completed
  | continued
  deriving Repr, DecidableEq

/-- Result of one `get_xfer_progress` continuation: new state, the
callback delivery (the function always falls through to `done:`), the
exit taken, whether `gw_obex_xfer_flush` was issued (a further transport
request), and the byte region handed to `write(2)` (`none` when no write
was attempted). -/
structure GetStepResult where
  state : TransferData
  event : CbEvent
  exit : GetExit
  requestedNext : Bool
  wrote : Option (List Nat)
  deriving Repr, DecidableEq

/-- transfer.c `get_xfer_progress` (lines 270-315), the plain-file GET
continuation.  Explicit transport/OS inputs: `rr` is the
`gw_obex_xfer_read` outcome, `objSize` the value
`gw_obex_xfer_object_size` would return, `w` the return value of the
`write(2)` call on the destination descriptor (negative = failure, with
`wErrno` the accompanying `errno`; both are ignored when no write
happens).  The C function allocates the buffer on first entry, reads at
`buffer + filled`, adds `bread` to `filled` and `transferred`, fetches
the object size if still unknown, writes `buffer[0..bread)` to the
descriptor when one is open (only `w < 0` counts as failure; `filled`
resets to 0 otherwise), stops flushing once `transferred == size`, and
always falls through to the callback. -/
def get_xfer_progress (t : TransferData) (rr : ReadResult) (objSize : Nat)
    (w : Int) (wErrno : Int) : GetStepResult :=
  let bl := if t.buffer_len = 0 then DEFAULT_BUFFER_SIZE else t.buffer_len
  match rr with
  | .fail e =>
      ⟨{ t with buffer_len := bl, err := e },
        ⟨t.transferred, e⟩, .readError, false, none⟩
  | .ok chunk =>
      let pending' := t.pending ++ chunk
      let transferred' := t.transferred + chunk.length
      let size' := if t.size = 0 then objSize else t.size
      if t.fd > 0 then
        if w < 0 then
          ⟨{ t with
              buffer_len := bl
              pending := pending'
              transferred := transferred'
              size := size'
              err := -wErrno },
            ⟨transferred', -wErrno⟩, .writeError, false,
            some (pending'.take chunk.length)⟩
        else if transferred' = size' then
          ⟨{ t with
              buffer_len := bl
              pending := []
              transferred := transferred'
              size := size' },
            ⟨transferred', t.err⟩, .completed, false,
            some (pending'.take chunk.length)⟩
        else
          ⟨{ t with
              buffer_len := bl
              pending := []
              transferred := transferred'
              size := size' },
            ⟨transferred', t.err⟩, .continued, true,
            some (pending'.take chunk.length)⟩
      else
        if transferred' = size' then
          ⟨{ t with
              buffer_len := bl
              pending := pending'
              transferred := transferred'
              size := size' },
            ⟨transferred', t.err⟩, .completed, false, none⟩
        else
          ⟨{ t with
              buffer_len := bl
              pending := pending'
              transferred := transferred'
              size := size' },
            ⟨transferred', t.err⟩, .continued, true, none⟩

/-- Outcome of `gw_obex_xfer_write`: success with the byte count the
transport accepted (flow control may make it smaller than offered), or
failure with an error code placed in the caller's `err`. -/
inductive WriteResult where
  | ok (written : Nat)
  | fail (e : Int)
  deriving Repr, DecidableEq

/-- Outcome of `gw_obex_xfer_flush` when its error out-parameter is
inspected. -/
inductive FlushResult where
  | ok
  | fail (e : Int)
  deriving Repr, DecidableEq

/-- Which exit of `put_buf_xfer_progress` was taken. -/
inductive PutBufExit where
  | alreadyDone
  | writeFailed
  | flushFailed
  | advanced
  deriving Repr, DecidableEq

/-- Result of one `put_buf_xfer_progress` continuation: new state, the
callback delivery, the exit taken, the write request issued to the
transport as an (offset, length) region of the source buffer (`none`
when no write was attempted), and the count the transport reported as
accepted (`none` when the write call did not succeed). -/
structure PutBufStepResult where
  state : TransferData
  event : CbEvent
  exit : PutBufExit
  offered : Option (Nat × Nat)
  accepted : Option Nat
  deriving Repr, DecidableEq

/-- transfer.c `put_buf_xfer_progress` (lines 317-340), the
PUT-from-memory continuation.  If `transferred == size` it jumps
straight to the callback; otherwise it writes
`buffer + transferred .. size - transferred` to the transport, flushes,
and only after a successful flush adds the accepted count to
`transferred`; a failed write or flush records the error and falls
through to the callback without advancing `transferred`. -/
def put_buf_xfer_progress (t : TransferData) (wr : WriteResult)
    (fr : FlushResult) : PutBufStepResult :=
  if t.transferred = t.size then
    ⟨t, ⟨t.transferred, t.err⟩, .alreadyDone, none, none⟩
  else
    match wr with
    | .fail e =>
        ⟨{ t with err := e }, ⟨t.transferred, e⟩, .writeFailed,
          some (t.transferred, t.size - t.transferred), none⟩
    | .ok written =>
        match fr with
        | .fail e =>
            ⟨{ t with err := e }, ⟨t.transferred, e⟩, .flushFailed,
              some (t.transferred, t.size - t.transferred), some written⟩
        | .ok =>
            ⟨{ t with transferred := t.transferred + written },
              ⟨t.transferred + written, t.err⟩, .advanced,
              some (t.transferred, t.size - t.transferred), some written⟩

/-- The transfer-record fields the PUT-from-file continuation uses:
`pending` is again `buffer[0..filled)`. -/
structure PutFileState where
  buffer_len : Nat
  pending : List Nat
  transferred : Nat
  deriving Repr, DecidableEq

/-- Result of one iteration of `put_xfer_progress`'s do-while loop. -/
inductive PutIterResult where
  | continueLoop (s : PutFileState)
  | exitShort (s : PutFileState) (written : Nat)
  | doneComplete (s : PutFileState)
  | doneReadError (s : PutFileState) (e : Int)
  | doneWriteError (s : PutFileState) (e : Int)
  deriving Repr, DecidableEq

/-- The state carried by any `PutIterResult`. -/
def PutIterResult.stateOf : PutIterResult → PutFileState
  | .continueLoop s => s
  | .exitShort s _ => s
  | .doneComplete s => s
  | .doneReadError s _ => s
  | .doneWriteError s _ => s

/-- One iteration of the do-while loop of transfer.c `put_xfer_progress`
(lines 353-375), plus the buffer compaction at line 377 that a loop exit
performs.  `rr` is the outcome of `read(2)` on the source file (a chunk
of at most `buffer_len - filled` bytes, empty at end of file), `wr` the
outcome of `gw_obex_xfer_write`.  The iteration appends the chunk at
`filled`; if the buffer is then empty (end of file and nothing left to
flush) it reports completion; otherwise it offers the whole
`buffer[0..filled)` to the transport — on success `filled` drops and
`transferred` grows by the accepted count, the loop repeats while
`filled == 0`, and on a short write the loop exits and
`memmove(buffer, buffer + written, filled)` shifts the remainder to the
front.  The second component is the byte region offered to the
transport's write (`none` when no write was attempted). -/
def put_xfer_iteration (s : PutFileState) (rr : ReadResult)
    (wr : WriteResult) : PutIterResult × Option (List Nat) :=
  match rr with
  | .fail e => (.doneReadError s e, none)
  | .ok chunk =>
      let pending' := s.pending ++ chunk
      if pending'.length = 0 then
        (.doneComplete { s with pending := pending' }, none)
      else
        match wr with
        | .fail e => (.doneWriteError { s with pending := pending' } e,
            some pending')
        | .ok written =>
            let s' : PutFileState :=
              { s with
                  pending := pending'.drop written
                  transferred := s.transferred + written }
            if pending'.length - written = 0 then
              (.continueLoop s', some pending')
            else
              (.exitShort s' written, some pending')

/-- The do-while loop of `put_xfer_progress`, driven by a finite list of
per-iteration transport/OS behaviours; `none` when the supplied
behaviours run out before the loop finishes. -/
def put_xfer_loop (s : PutFileState) :
    List (ReadResult × WriteResult) → Option PutIterResult
  | [] => none
  | (rr, wr) :: rest =>
      match put_xfer_iteration s rr wr with
      | (.continueLoop s', _) => put_xfer_loop s' rest
      | (r, _) => some r

/-- transfer.c `put_xfer_progress` (lines 342-383): allocate the buffer
on first entry, run the loop, and fall through to the callback, whose
error argument is the local `err` (0 unless a read or write failed). -/
def put_xfer_progress (s : PutFileState)
    (inputs : List (ReadResult × WriteResult)) :
    Option (PutFileState × CbEvent) :=
  let s := if s.buffer_len = 0 then
    { s with buffer_len := DEFAULT_BUFFER_SIZE } else s
  match put_xfer_loop s inputs with
  | none => none
  | some (.continueLoop _) => none
  | some (.doneComplete s') => some (s', ⟨s'.transferred, 0⟩)
  | some (.doneReadError s' e) => some (s', ⟨s'.transferred, e⟩)
  | some (.doneWriteError s' e) => some (s', ⟨s'.transferred, e⟩)
  | some (.exitShort s' _) => some (s', ⟨s'.transferred, 0⟩)

/-- Outcome of `fstat(2)` on the PUT source descriptor. -/
inductive StatResult where
  | ok (stSize : Nat)
  | fail (e : Int)
  deriving Repr, DecidableEq

/-- transfer.c `transfer_get` (lines 400-445).  OS/transport behaviour
as inputs: `openRes` is the return value of `open(2)` on the destination
(a descriptor, or -1 with `openErrno` the errno), `beginOk` whether
`gw_obex_get_async`(`_with_apparam`) returned a handle (`h` names it),
`funcGiven` whether a callback function was passed.  Faithfully kept
from the source: the guard after `open` tests the PRE-EXISTING
`transfer->fd`, not the freshly returned `fd` (line 416), before storing
`fd` into `transfer->fd`. -/
def transfer_get (t : TransferData) (openRes openErrno : Int)
    (beginOk : Bool) (h : Nat) (funcGiven : Bool) : Int × TransferData :=
  if t.xfer ≠ none then (-EALREADY, t)
  else if t.isListingType then
    if beginOk then
      (0, { t with
              xfer := some h
              callbackSet := funcGiven || t.callbackSet })
    else (-ENOTCONN, t)
  else
    if t.fd < 0 then (-openErrno, t)
    else
      let t' := { t with fd := openRes }
      if beginOk then
        (0, { t' with
                xfer := some h
                callbackSet := funcGiven || t'.callbackSet })
      else (-ENOTCONN, t')

/-- The `done:` tail of transfer.c `transfer_put` (lines 479-491):
attempt `gw_obex_put_async`, returning `-ENOTCONN` if it yields no
handle, otherwise store the handle, install the callback if one was
passed, and return 0. -/
def put_done (t : TransferData) (beginOk : Bool) (h : Nat)
    (funcGiven : Bool) : Int × TransferData :=
  if beginOk then
    (0, { t with
            xfer := some h
            callbackSet := funcGiven || t.callbackSet })
  else (-ENOTCONN, t)

/-- transfer.c `transfer_put` (lines 447-492).  If a source buffer is
present the local file is not touched (`goto done`); otherwise the
source file is opened read-only (`openRes`/`openErrno` as in
`transfer_get`) and `fstat`ed (`sr`), each failure returned as `-errno`
before any transport call; then the `done:` tail runs. -/
def transfer_put (t : TransferData) (openRes openErrno : Int)
    (sr : StatResult) (beginOk : Bool) (h : Nat) (funcGiven : Bool) :
    Int × TransferData :=
  if t.xfer ≠ none then (-EALREADY, t)
  else if t.bufferNonNull then put_done t beginOk h funcGiven
  else if openRes < 0 then (-openErrno, t)
  else match sr with
    | .fail e => (-e, t)
    | .ok stSize =>
        put_done { t with fd := openRes, size := stSize } beginOk h
          funcGiven

/-- C string length of a byte list: the number of bytes before the first
NUL terminator (the whole list if none is present, which matches
`strlen` exactly whenever a terminator is known to be present). -/
def strlen (l : List Nat) : Nat := (l.takeWhile (fun b => b != 0)).length

/-- Result of one `get_xfer_listing_progress` continuation.  The C code
writes the appended terminator at `buffer[filled]` without advancing
`filled`, so `state.pending` stays `buffer[0..filled)`; `terminated` is
the terminator-delimited content `strlen`/the caller observe at `done:`
after full delivery (`buffer[0..filled)` if it already ends in NUL,
otherwise `buffer[0..filled]` including the appended NUL).
`checkedIndex`/`checkCapacity` record the index of the terminal
`buffer[filled - 1]` check (as the C `gint` arithmetic computes it) and
the buffer capacity at that moment. -/
structure ListingStepResult where
  state : TransferData
  event : Option CbEvent
  terminated : Option (List Nat)
  appendedTerminator : Bool
  checkedIndex : Option Int
  checkCapacity : Option Nat
  deriving Repr, DecidableEq

/-- transfer.c `get_xfer_listing_progress` (lines 226-268), the listing
GET continuation.  Grows the buffer by `DEFAULT_BUFFER_SIZE` whenever
headroom is below it, reads at `buffer + filled`, and: on a read error
jumps to `done:`; while the object is not yet fully delivered just
returns (no callback); once `gw_obex_xfer_object_done` holds, checks
`buffer[filled - 1]`, appends a NUL at `buffer[filled]` (ensuring one
byte of capacity, growing again if needed) unless the last byte already
is one, sets `size = strlen(buffer)` and fires the callback once with
(`size`, `err`).  (On the read-error path the C `strlen` scans
uninitialised memory; the model uses the accumulated bytes, which agrees
with C exactly when a terminator is present, as it always is on the
fully-delivered path.) -/
def get_xfer_listing_progress (t : TransferData) (rr : ReadResult)
    (objectDone : Bool) : ListingStepResult :=
  let bl := if t.buffer_len - t.pending.length < DEFAULT_BUFFER_SIZE then
    t.buffer_len + DEFAULT_BUFFER_SIZE else t.buffer_len
  match rr with
  | .fail e =>
      ⟨{ t with buffer_len := bl, err := e, size := strlen t.pending },
        some ⟨strlen t.pending, e⟩, none, false, none, none⟩
  | .ok chunk =>
      let pending' := t.pending ++ chunk
      if objectDone then
        if pending'.getLast? = some 0 then
          ⟨{ t with
              buffer_len := bl
              pending := pending'
              size := strlen pending' },
            some ⟨strlen pending', t.err⟩, some pending',
            false, some ((pending'.length : Int) - 1), some bl⟩
        else
          let bl2 := if bl - pending'.length < 1 then
            bl + DEFAULT_BUFFER_SIZE else bl
          ⟨{ t with
              buffer_len := bl2
              pending := pending'
              size := strlen (pending' ++ [0]) },
            some ⟨strlen (pending' ++ [0]), t.err⟩,
            some (pending' ++ [0]),
            true, some ((pending'.length : Int) - 1), some bl⟩
      else
        ⟨{ t with buffer_len := bl, pending := pending' },
          none, none, false, none, none⟩

/-- Whether a buffer access at (gint) index `idx` of a buffer of
capacity `len` stays inside the allocation. -/
def indexInBounds (idx : Int) (len : Nat) : Prop := 0 ≤ idx ∧ idx < len

instance (idx : Int) (len : Nat) : Decidable (indexInBounds idx len) :=
  inferInstanceAs (Decidable (_ ∧ _))

/-- A fresh listing GET: handle 2 live, callback registered, nothing
accumulated. -/
def exListing : TransferData :=
  ⟨some 2, true, false, 0, [], 0, 0, 0, 0, true⟩

/-- The listing GET of Scenario C after its first continuation
delivered "A\0" (bytes 65, 0) with the object not yet done. -/
def exListingMid : TransferData :=
  (get_xfer_listing_progress exListing (.ok [65, 0]) false).state

/-- A fresh plain-file transfer before `transfer_get`/`transfer_put`:
no handle, no callback, no buffer, fd 0. -/
def exFreshFile : TransferData :=
  ⟨none, false, false, 0, [], 0, 0, 0, 0, false⟩

/-- A PUT-from-memory transfer of 5 source bytes, none sent yet. -/
def exPutBuf : TransferData :=
  ⟨some 4, true, true, 5, [1, 2, 3, 4, 5], 5, 0, 0, 0, false⟩

/-- A PUT-from-file state with two bytes still buffered. -/
def exPutFile : PutFileState := ⟨4096, [1, 2], 5⟩

/-- A transfer mid-way through a plain-file GET: handle 3 live, callback
registered, destination fd 1 open, 4 of 10 bytes moved. -/
def exGetMid : TransferData :=
  ⟨some 3, true, true, 4096, [], 10, 4, 1, 0, false⟩

/-- A fresh plain-file GET: handle 7 live, destination fd 1 open,
nothing moved yet, expected size 10. -/
def exGetFresh : TransferData :=
  ⟨some 7, true, true, 4096, [], 10, 0, 1, 0, false⟩

/-- A plain-file GET two bytes short of its declared size 4. -/
def exGetNearDone : TransferData :=
  ⟨some 7, true, true, 4096, [], 4, 2, 1, 0, false⟩

/-- A live transfer used to exercise `transfer_abort`. -/
def exLive : TransferData :=
  ⟨some 5, true, false, 4096, [1, 2], 10, 2, 1, 0, false⟩

end ObexTransfer

namespace ObexTransfer

/-- C1: `transfer_abort` on a transfer with no transport handle changes
nothing and delivers no callback; with a handle present it tears the
handle down, clears it, and delivers the registered callback exactly
once with the current `transferred` and `-ECANCELED`, so a second abort
right after delivers nothing. -/
theorem abort_idempotent_single_callback (t : TransferData) :
    (t.xfer = none →
      transfer_abort t = ⟨t, [], false⟩) ∧
    (t.xfer ≠ none → t.callbackSet = true →
      (transfer_abort t).state.xfer = none ∧
      (transfer_abort t).toreDown = true ∧
      (transfer_abort t).events = [⟨t.transferred, -ECANCELED⟩] ∧
      (transfer_abort (transfer_abort t).state).events = [] ∧
      (transfer_abort (transfer_abort t).state).state =
        (transfer_abort t).state) := by
  constructor
  · intro h
    simp [transfer_abort, h]
  · intro hx hcb
    match hxe : t.xfer with
    | none => exact absurd hxe hx
    | some h =>
      refine ⟨?_, ?_, ?_, ?_, ?_⟩ <;>
        simp [transfer_abort, hxe, hcb]

/-- Witness for C1 at a concrete transfer with a handle present. -/
theorem abort_idempotent_single_callback_witness :
    exLive.xfer ≠ none ∧ exLive.callbackSet = true ∧
      (transfer_abort exLive).events = [⟨2, -ECANCELED⟩] ∧
      (transfer_abort (transfer_abort exLive).state).events = [] := by
  refine ⟨by decide, rfl, ?_, ?_⟩
  · exact ((abort_idempotent_single_callback exLive).2 (by decide) rfl).2.2.1
  · exact ((abort_idempotent_single_callback exLive).2 (by decide) rfl).2.2.2.1

/-- C5: every `get_xfer_progress` continuation delivers the callback
with the cumulative `transferred`; on a successful read (and no local
write failure) the strategy reports completion, and issues no further
transport request, exactly when `transferred` has reached `size`, and
otherwise flushes for the next chunk; hence at a COMPLETED callback
`transferred = size`. -/
theorem get_progress_completion (t : TransferData) (rr : ReadResult)
    (objSize : Nat) (w : Int) (wErrno : Int) :
    (get_xfer_progress t rr objSize w wErrno).event.count =
      (get_xfer_progress t rr objSize w wErrno).state.transferred ∧
    ((get_xfer_progress t rr objSize w wErrno).exit = .completed →
      (get_xfer_progress t rr objSize w wErrno).event.count =
        (get_xfer_progress t rr objSize w wErrno).state.size) ∧
    (∀ chunk, rr = .ok chunk → ¬(t.fd > 0 ∧ w < 0) →
      (get_xfer_progress t rr objSize w wErrno).state.transferred =
        t.transferred + chunk.length ∧
      ((get_xfer_progress t rr objSize w wErrno).requestedNext = false ↔
        (get_xfer_progress t rr objSize w wErrno).state.transferred =
          (get_xfer_progress t rr objSize w wErrno).state.size) ∧
      ((get_xfer_progress t rr objSize w wErrno).exit = .completed ↔
        (get_xfer_progress t rr objSize w wErrno).state.transferred =
          (get_xfer_progress t rr objSize w wErrno).state.size)) := by
  cases rr with
  | fail e => simp [get_xfer_progress]
  | ok chunk =>
      refine ⟨?_, ?_, ?_⟩
      · simp only [get_xfer_progress]
        split_ifs <;> rfl
      · simp only [get_xfer_progress]
        split_ifs <;> simp_all
      · intro c hc hnw
        injection hc with hc
        subst hc
        simp only [get_xfer_progress]
        split_ifs <;> simp_all

/-- Witness for C5 on a concrete mid-transfer chunk. -/
theorem get_progress_completion_witness :
    (get_xfer_progress exGetMid (.ok [7, 8]) 10 2 0).event.count =
      (get_xfer_progress exGetMid (.ok [7, 8]) 10 2 0).state.transferred ∧
    (get_xfer_progress exGetMid (.ok [7, 8]) 10 2 0).state.transferred = 6 ∧
    ((get_xfer_progress exGetMid (.ok [7, 8]) 10 2 0).requestedNext = false ↔
      (get_xfer_progress exGetMid (.ok [7, 8]) 10 2 0).state.transferred =
        (get_xfer_progress exGetMid (.ok [7, 8]) 10 2 0).state.size) := by
  have h := get_progress_completion exGetMid (.ok [7, 8]) 10 2 0
  exact ⟨h.1, by
    have := (h.2.2 [7, 8] rfl (by decide)).1
    simpa [exGetMid] using this,
    (h.2.2 [7, 8] rfl (by decide)).2.1⟩

/-- C6 counterexample: a destination-file write that accepts fewer bytes
than requested (here 1 of 2) is not recorded as a local I/O failure —
`err` stays 0, the step continues, and `filled` is nonetheless reset
to 0, contradicting "treated as a local I/O failure" and "reset only
after a fully successful write". -/
theorem get_short_write_not_failure :
    (get_xfer_progress exGetFresh (.ok [5, 6]) 10 1 0).wrote =
      some [5, 6] ∧
    (0 : Int) ≤ 1 ∧ (1 : Int) < 2 ∧
    (get_xfer_progress exGetFresh (.ok [5, 6]) 10 1 0).state.err = 0 ∧
    (get_xfer_progress exGetFresh (.ok [5, 6]) 10 1 0).exit ≠
      .writeError ∧
    (get_xfer_progress exGetFresh (.ok [5, 6]) 10 1 0).state.pending =
      [] ∧
    (get_xfer_progress exGetFresh (.ok [5, 6]) 10 1 0).requestedNext =
      true := by
  decide

/-- C6 amended: on a plain-file GET step with an open destination and an
empty buffer on entry, the entire filled region (the freshly read chunk)
is handed to `write(2)` in one call; a write returning a negative value
is treated as a local I/O failure (recorded in `err`, delivered through
the callback, no retry and no further transport request); and after any
write returning a nonnegative count — even one smaller than requested —
`filled` is reset to 0. -/
theorem get_write_policy (t : TransferData) (chunk : List Nat)
    (objSize : Nat) (w : Int) (wErrno : Int)
    (hfd : t.fd > 0) (hpend : t.pending = []) :
    (get_xfer_progress t (.ok chunk) objSize w wErrno).wrote =
      some chunk ∧
    (w < 0 →
      (get_xfer_progress t (.ok chunk) objSize w wErrno).exit =
        .writeError ∧
      (get_xfer_progress t (.ok chunk) objSize w wErrno).state.err =
        -wErrno ∧
      (get_xfer_progress t (.ok chunk) objSize w wErrno).event =
        ⟨t.transferred + chunk.length, -wErrno⟩ ∧
      (get_xfer_progress t (.ok chunk) objSize w wErrno).requestedNext =
        false) ∧
    (0 ≤ w →
      (get_xfer_progress t (.ok chunk) objSize w wErrno).state.pending =
        []) := by
  refine ⟨?_, ?_, ?_⟩
  · simp only [get_xfer_progress]
    split_ifs <;> simp_all
  · intro hw
    simp only [get_xfer_progress]
    split_ifs <;> simp_all
  · intro hw
    have hw' : ¬ w < 0 := not_lt.mpr hw
    simp only [get_xfer_progress]
    split_ifs <;> simp_all

/-- Witness for C6's amended statement: a failing write (-1, errno 13)
on a concrete step. -/
theorem get_write_policy_witness :
    (get_xfer_progress exGetFresh (.ok [5, 6]) 10 (-1) EACCES).wrote =
      some [5, 6] ∧
    (get_xfer_progress exGetFresh (.ok [5, 6]) 10 (-1) EACCES).exit =
      .writeError ∧
    (get_xfer_progress exGetFresh (.ok [5, 6]) 10 (-1) EACCES).state.err =
      -EACCES ∧
    (get_xfer_progress exGetFresh (.ok [5, 6]) 10 (-1) EACCES).event =
      ⟨2, -EACCES⟩ := by
  have h := get_write_policy exGetFresh [5, 6] 10 (-1) EACCES
    (by decide) rfl
  exact ⟨h.1, (h.2.1 (by decide)).1, (h.2.1 (by decide)).2.1,
    (h.2.1 (by decide)).2.2.1⟩

/-- C2 counterexample: a GET continuation that reaches completion
(`transferred = size`, COMPLETED reported through the callback) leaves
`transfer->xfer` set; a subsequent `transfer_abort` therefore tears the
handle down and delivers a second callback, so the handle is not cleared
on completion and abort-after-completion is not a no-op. -/
theorem xfer_not_cleared_on_completion :
    (get_xfer_progress exGetNearDone (.ok [9, 9]) 4 2 0).exit =
      .completed ∧
    (get_xfer_progress exGetNearDone (.ok [9, 9]) 4 2 0).state.xfer =
      some 7 ∧
    (transfer_abort
      (get_xfer_progress exGetNearDone (.ok [9, 9]) 4 2 0).state).toreDown =
      true ∧
    (transfer_abort
      (get_xfer_progress exGetNearDone (.ok [9, 9]) 4 2 0).state).events =
      [⟨4, -ECANCELED⟩] := by
  decide

/-- C2 amended: the transport handle is cleared by `transfer_abort` (and
only released otherwise at destruction); the GET continuation leaves it
untouched on completion and on error, so an abort issued after natural
completion (before unregistration) still tears the handle down and
delivers one more callback, and only an abort after an abort is an
idempotent no-op. -/
theorem xfer_cleared_only_by_abort (t : TransferData) (rr : ReadResult)
    (objSize : Nat) (w : Int) (wErrno : Int) :
    (get_xfer_progress t rr objSize w wErrno).state.xfer = t.xfer ∧
    (t.xfer ≠ none → t.callbackSet = true →
      (transfer_abort (get_xfer_progress t rr objSize w wErrno).state).events
        ≠ [] ∧
      (transfer_abort (transfer_abort t).state).events = [] ∧
      (transfer_abort (transfer_abort t).state).toreDown = false) := by
  have hpres : (get_xfer_progress t rr objSize w wErrno).state.xfer =
      t.xfer := by
    cases rr with
    | fail e => simp [get_xfer_progress]
    | ok chunk =>
        simp only [get_xfer_progress]
        split_ifs <;> rfl
  have hcbpres : (get_xfer_progress t rr objSize w wErrno).state.callbackSet =
      t.callbackSet := by
    cases rr with
    | fail e => simp [get_xfer_progress]
    | ok chunk =>
        simp only [get_xfer_progress]
        split_ifs <;> rfl
  refine ⟨hpres, ?_⟩
  intro hx hcb
  match hxe : t.xfer with
  | none => exact absurd hxe hx
  | some h =>
      refine ⟨?_, ?_, ?_⟩
      · rw [transfer_abort.eq_def]
        rw [hpres, hxe]
        simp [hcbpres, hcb]
      · simp [transfer_abort, hxe]
      · simp [transfer_abort, hxe]

/-- C7 counterexample: a PUT-from-memory step whose transport write
succeeds (the transport reports 3 bytes accepted) but whose flush fails
leaves `transferred` at 0 — the `goto done` skips the
`transferred += written` line — so a step that did write does not
advance `transferred` by the accepted count. -/
theorem put_buf_flush_failure_drops_accepted :
    (put_buf_xfer_progress exPutBuf (.ok 3) (.fail (-5))).exit =
      .flushFailed ∧
    (put_buf_xfer_progress exPutBuf (.ok 3) (.fail (-5))).offered =
      some (0, 5) ∧
    (put_buf_xfer_progress exPutBuf (.ok 3) (.fail (-5))).accepted =
      some 3 ∧
    (put_buf_xfer_progress exPutBuf (.ok 3) (.fail (-5))).state.transferred
      = 0 ∧
    (3 : Nat) ≠ 0 := by
  decide

/-- C7 amended: a PUT-from-memory continuation entered with
`transferred = size` performs no transport write and changes nothing; a
step below `size` offers exactly the unsent region
`(transferred, size - transferred)`; when both the write and the
subsequent flush succeed, `transferred` advances by exactly the count
the transport accepted; on a write failure or a flush failure
`transferred` is unchanged and the error is delivered through the
callback. -/
theorem put_buf_write_policy (t : TransferData) (wr : WriteResult)
    (fr : FlushResult) :
    (t.transferred = t.size →
      put_buf_xfer_progress t wr fr =
        ⟨t, ⟨t.transferred, t.err⟩, .alreadyDone, none, none⟩) ∧
    (t.transferred ≠ t.size →
      (put_buf_xfer_progress t wr fr).offered =
        some (t.transferred, t.size - t.transferred) ∧
      (∀ written, wr = .ok written → fr = .ok →
        (put_buf_xfer_progress t wr fr).state.transferred =
          t.transferred + written ∧
        (put_buf_xfer_progress t wr fr).accepted = some written) ∧
      (∀ e, wr = .fail e →
        (put_buf_xfer_progress t wr fr).state.transferred =
          t.transferred ∧
        (put_buf_xfer_progress t wr fr).event = ⟨t.transferred, e⟩) ∧
      (∀ written e, wr = .ok written → fr = .fail e →
        (put_buf_xfer_progress t wr fr).state.transferred =
          t.transferred ∧
        (put_buf_xfer_progress t wr fr).event = ⟨t.transferred, e⟩)) := by
  constructor
  · intro hts
    simp [put_buf_xfer_progress, hts]
  · intro hts
    refine ⟨?_, ?_, ?_, ?_⟩
    · cases wr <;> cases fr <;> simp [put_buf_xfer_progress, hts]
    · intro written hwr hfr
      subst hwr; subst hfr
      simp [put_buf_xfer_progress, hts]
    · intro e hwr
      subst hwr
      cases fr <;> simp [put_buf_xfer_progress, hts]
    · intro written e hwr hfr
      subst hwr; subst hfr
      simp [put_buf_xfer_progress, hts]

/-- Witness for C7's amended statement: a clean 2-byte write on a
concrete 5-byte buffer PUT. -/
theorem put_buf_write_policy_witness :
    exPutBuf.transferred ≠ exPutBuf.size ∧
    (put_buf_xfer_progress exPutBuf (.ok 2) .ok).offered = some (0, 5) ∧
    (put_buf_xfer_progress exPutBuf (.ok 2) .ok).state.transferred = 2 ∧
    (put_buf_xfer_progress exPutBuf (.ok 2) .ok).accepted = some 2 := by
  have h := put_buf_write_policy exPutBuf (.ok 2) .ok
  refine ⟨by decide, (h.2 (by decide)).1, ?_, ?_⟩
  · exact ((h.2 (by decide)).2.1 2 rfl rfl).1
  · exact ((h.2 (by decide)).2.1 2 rfl rfl).2

/-- Any `doneComplete` iteration result carries an empty buffer. -/
theorem put_iter_doneComplete_pending (s : PutFileState) (rr : ReadResult)
    (wr : WriteResult) (s' : PutFileState)
    (hd : (put_xfer_iteration s rr wr).1 = .doneComplete s') :
    s'.pending = [] := by
  obtain ⟨bl, pend, tr⟩ := s
  cases rr with
  | fail e => simp [put_xfer_iteration] at hd
  | ok chunk =>
      by_cases hz : pend = [] ∧ chunk = []
      · obtain ⟨h1, h2⟩ := hz
        subst h1; subst h2
        simp [put_xfer_iteration] at hd
        subst hd
        rfl
      · cases wr with
        | fail e => simp [put_xfer_iteration, hz] at hd
        | ok written =>
            by_cases hfull :
                pend.length + chunk.length - written = 0 <;>
              simp [put_xfer_iteration, hz, hfull] at hd

/-- Only a read that delivers nothing into an empty buffer ends the
PUT-from-file loop with completion. -/
theorem put_loop_doneComplete_pending
    (inputs : List (ReadResult × WriteResult)) (s s' : PutFileState)
    (hl : put_xfer_loop s inputs = some (.doneComplete s')) :
    s'.pending = [] := by
  induction inputs generalizing s with
  | nil => simp [put_xfer_loop] at hl
  | cons iw rest ih =>
      obtain ⟨rr, wr⟩ := iw
      rw [put_xfer_loop] at hl
      rcases hit : put_xfer_iteration s rr wr with ⟨r, off⟩
      rw [hit] at hl
      cases r with
      | continueLoop s1 => exact ih s1 hl
      | exitShort s1 w => simp at hl
      | doneComplete s1 =>
          have hp := put_iter_doneComplete_pending s rr wr s1 (by rw [hit])
          simp at hl
          subst hl
          exact hp
      | doneReadError s1 e => simp at hl
      | doneWriteError s1 e => simp at hl

/-- C8: each PUT-from-file loop iteration offers the entire buffered
region (the carried-over remainder followed by the fresh read) to the
transport; it reports completion exactly when the read returned no new
bytes into an empty buffer; after a successful write the continuation
state holds the unsent remainder shifted to the front (so the next read
appends after it) and `transferred` grown by exactly the accepted
count, the loop exiting precisely on a short write; and a loop run that
reports completion ends with a fully flushed buffer. -/
theorem put_file_progress_policy (s : PutFileState) (chunk : List Nat)
    (written : Nat) (hw : written ≤ (s.pending ++ chunk).length) :
    ((put_xfer_iteration s (.ok chunk) (.ok written)).2 =
      if s.pending ++ chunk = [] then none else some (s.pending ++ chunk)) ∧
    ((∃ s', (put_xfer_iteration s (.ok chunk) (.ok written)).1 =
        .doneComplete s') ↔ chunk = [] ∧ s.pending = []) ∧
    (s.pending ++ chunk ≠ [] →
      (put_xfer_iteration s (.ok chunk) (.ok written)).1.stateOf.pending =
        (s.pending ++ chunk).drop written ∧
      (put_xfer_iteration s (.ok chunk) (.ok written)).1.stateOf.transferred
        = s.transferred + written ∧
      ((∃ s', (put_xfer_iteration s (.ok chunk) (.ok written)).1 =
          .exitShort s' written) ↔
        written < (s.pending ++ chunk).length)) ∧
    (∀ inputs s', put_xfer_loop s inputs = some (.doneComplete s') →
      s'.pending = []) := by
  obtain ⟨bl, pend, tr⟩ := s
  refine ⟨?_, ?_, ?_, ?_⟩
  · by_cases hz : pend = [] ∧ chunk = []
    · obtain ⟨h1, h2⟩ := hz
      subst h1; subst h2
      simp [put_xfer_iteration]
    · by_cases hfull : pend.length + chunk.length - written = 0 <;>
        simp [put_xfer_iteration, hz, hfull]
  · constructor
    · rintro ⟨s', hs'⟩
      by_cases hz : pend = [] ∧ chunk = []
      · exact ⟨hz.2, hz.1⟩
      · by_cases hfull : pend.length + chunk.length - written = 0 <;>
          simp [put_xfer_iteration, hz, hfull] at hs'
    · rintro ⟨hc, hp⟩
      subst hc; subst hp
      exact ⟨⟨bl, [], tr⟩, by simp [put_xfer_iteration]⟩
  · intro hne
    have hz : ¬(pend = [] ∧ chunk = []) := by
      rintro ⟨h1, h2⟩
      subst h1; subst h2
      simp at hne
    by_cases hfull : pend.length + chunk.length - written = 0
    · refine ⟨?_, ?_, ?_⟩
      · simp [put_xfer_iteration, hz, hfull, PutIterResult.stateOf]
      · simp [put_xfer_iteration, hz, hfull, PutIterResult.stateOf]
      · simp [put_xfer_iteration, hz, hfull, PutIterResult.stateOf]
        omega
    · refine ⟨?_, ?_, ?_⟩
      · simp [put_xfer_iteration, hz, hfull, PutIterResult.stateOf]
      · simp [put_xfer_iteration, hz, hfull, PutIterResult.stateOf]
      · simp [put_xfer_iteration, hz, hfull, PutIterResult.stateOf]
        omega
  · intro inputs s' hl
    exact put_loop_doneComplete_pending inputs ⟨bl, pend, tr⟩ s' hl

/-- Witness for C8: a concrete short write (3 of 4 buffered bytes
accepted) on `exPutFile`. -/
theorem put_file_progress_policy_witness :
    (3 : Nat) ≤ (exPutFile.pending ++ [3, 4]).length ∧
    (put_xfer_iteration exPutFile (.ok [3, 4]) (.ok 3)).2 =
      some [1, 2, 3, 4] ∧
    (put_xfer_iteration exPutFile (.ok [3, 4]) (.ok 3)).1.stateOf.pending =
      [4] ∧
    (put_xfer_iteration exPutFile (.ok [3, 4]) (.ok 3)).1.stateOf.transferred
      = 8 := by
  have h := put_file_progress_policy exPutFile [3, 4] 3 (by decide)
  refine ⟨by decide, ?_, ?_, ?_⟩
  · have := h.1
    simpa [exPutFile] using this
  · have := (h.2.2.1 (by decide)).1
    simpa [exPutFile] using this
  · have := (h.2.2.1 (by decide)).2.1
    simpa [exPutFile] using this

/-- C9: a second start call of either direction on a transfer whose
transport handle is already set returns `-EALREADY` and leaves the
transfer unchanged. -/
theorem start_rejected_when_started (t : TransferData)
    (openRes openErrno : Int) (sr : StatResult) (beginOk : Bool)
    (h : Nat) (funcGiven : Bool) (hx : t.xfer ≠ none) :
    transfer_get t openRes openErrno beginOk h funcGiven =
      (-EALREADY, t) ∧
    transfer_put t openRes openErrno sr beginOk h funcGiven =
      (-EALREADY, t) := by
  constructor <;> simp [transfer_get, transfer_put, hx]

/-- Witness for C9 on a live concrete transfer. -/
theorem start_rejected_when_started_witness :
    exLive.xfer ≠ none ∧
    transfer_get exLive 3 0 true 9 true = (-EALREADY, exLive) ∧
    transfer_put exLive 3 0 (.ok 5) true 9 true = (-EALREADY, exLive) := by
  refine ⟨by decide, ?_, ?_⟩
  · exact (start_rejected_when_started exLive 3 0 (.ok 5) true 9 true
      (by decide)).1
  · exact (start_rejected_when_started exLive 3 0 (.ok 5) true 9 true
      (by decide)).2

/-- C3 failing input: on a fresh transfer (fd = 0) a failed `open(2)` of
the GET destination (-1, errno EACCES) is silently ignored — the guard
at transfer.c:416 tests the stale `transfer->fd` instead of the freshly
returned `fd` — so `transfer_get` stores fd = -1, starts the exchange
and returns 0 instead of `-EACCES`.  The PUT-side open/stat failures and
the connectivity refusals of both entry points ARE returned directly,
as the claim says. -/
theorem get_open_failure_ignored :
    (transfer_get exFreshFile (-1) EACCES true 9 true).1 = 0 ∧
    (transfer_get exFreshFile (-1) EACCES true 9 true).2.fd = -1 ∧
    (transfer_get exFreshFile (-1) EACCES true 9 true).2.xfer = some 9 ∧
    (transfer_put exFreshFile (-1) EACCES (.ok 5) true 9 true).1 =
      -EACCES ∧
    (transfer_put exFreshFile 3 0 (.fail EACCES) true 9 true).1 =
      -EACCES ∧
    (transfer_get exFreshFile 3 0 false 9 true).1 = -ENOTCONN ∧
    (transfer_put exFreshFile 3 0 (.ok 5) false 9 true).1 = -ENOTCONN := by
  decide

/-- A NUL appended past the end of a byte list does not change its C
string length. -/
theorem strlen_append_nul (l : List Nat) : strlen (l ++ [0]) = strlen l := by
  induction l with
  | nil => simp [strlen]
  | cons a l ih =>
      by_cases h : a = 0
      · subst h
        simp [strlen]
      · have ha : (a != 0) = true := by simpa using h
        simp only [strlen, List.cons_append, List.takeWhile_cons, ha,
          if_true, List.length_cons] at ih ⊢
        omega

/-- C4: a listing GET continuation with the object not yet fully
delivered only accumulates (no callback); the continuation on which the
transport signals full delivery appends a NUL terminator if and only if
the last accumulated byte is not already one (with one extra byte of
capacity ensured when it appends), sets `size` to the C string length of
the accumulated bytes — not their raw count — and fires the callback
exactly once, at this terminal step, with that size. -/
theorem listing_terminal_semantics (t : TransferData) (chunk : List Nat)
    (hne : t.pending ++ chunk ≠ [])
    (hfill : t.pending.length ≤ t.buffer_len)
    (hchunk : chunk.length ≤ DEFAULT_BUFFER_SIZE) :
    ((get_xfer_listing_progress t (.ok chunk) false).event = none ∧
     (get_xfer_listing_progress t (.ok chunk) false).state.pending =
       t.pending ++ chunk ∧
     (get_xfer_listing_progress t (.ok chunk) false).state.err = t.err) ∧
    ((get_xfer_listing_progress t (.ok chunk) true).terminated =
       some ((t.pending ++ chunk) ++
         (if (t.pending ++ chunk).getLast? = some 0 then [] else [0])) ∧
     ((get_xfer_listing_progress t (.ok chunk) true).appendedTerminator =
        true ↔ (t.pending ++ chunk).getLast? ≠ some 0) ∧
     (get_xfer_listing_progress t (.ok chunk) true).state.size =
       strlen (t.pending ++ chunk) ∧
     (get_xfer_listing_progress t (.ok chunk) true).event =
       some ⟨strlen (t.pending ++ chunk), t.err⟩ ∧
     ((get_xfer_listing_progress t (.ok chunk) true).appendedTerminator =
        true →
       (t.pending ++ chunk).length <
         (get_xfer_listing_progress t (.ok chunk) true).state.buffer_len)) := by
  constructor
  · exact ⟨rfl, rfl, rfl⟩
  · by_cases hL : (t.pending ++ chunk).getLast? = some 0
    · refine ⟨?_, ?_, ?_, ?_, ?_⟩
      · simp only [get_xfer_listing_progress, if_true]
        rw [if_pos hL, if_pos hL]
        simp
      · simp only [get_xfer_listing_progress, if_true]
        rw [if_pos hL]
        simp [hL]
      · simp only [get_xfer_listing_progress, if_true]
        rw [if_pos hL]
      · simp only [get_xfer_listing_progress, if_true]
        rw [if_pos hL]
      · intro happ
        simp only [get_xfer_listing_progress, if_true] at happ
        rw [if_pos hL] at happ
        simp at happ
    · have hs := strlen_append_nul (t.pending ++ chunk)
      refine ⟨?_, ?_, ?_, ?_, ?_⟩
      · simp only [get_xfer_listing_progress, if_true]
        rw [if_neg hL, if_neg hL]
      · simp only [get_xfer_listing_progress, if_true]
        rw [if_neg hL]
        simpa using hL
      · simp only [get_xfer_listing_progress, if_true]
        rw [if_neg hL]
        exact hs
      · simp only [get_xfer_listing_progress, if_true]
        rw [if_neg hL, hs]
      · intro _
        simp only [get_xfer_listing_progress, if_true]
        rw [if_neg hL]
        simp only [DEFAULT_BUFFER_SIZE] at hchunk ⊢
        simp only [List.length_append]
        split_ifs <;> omega

/-- Witness for C4 on Scenario C: chunks "A\0" then "B" (final); the
terminator is appended after the trailing 66, the reported size is the
string length 1, not the raw count 3, and the callback fires with it. -/
theorem listing_terminal_semantics_witness :
    (get_xfer_listing_progress exListingMid (.ok [66]) true).terminated =
      some ((exListingMid.pending ++ [66]) ++
        (if (exListingMid.pending ++ [66]).getLast? = some 0 then []
         else [0])) ∧
    (get_xfer_listing_progress exListingMid (.ok [66]) true).event =
      some ⟨strlen (exListingMid.pending ++ [66]), exListingMid.err⟩ ∧
    (get_xfer_listing_progress exListingMid (.ok [66]) true).terminated =
      some [65, 0, 66, 0] ∧
    (get_xfer_listing_progress exListingMid (.ok [66]) true).event =
      some ⟨1, 0⟩ ∧
    (exListingMid.pending ++ [66]).length = 3 := by
  have h := listing_terminal_semantics exListingMid [66]
    (by decide) (by decide) (by decide)
  exact ⟨h.2.1, h.2.2.2.2.1, by decide, by decide, by decide⟩

/-- C10: the terminal terminator check of the listing GET reads
`buffer[filled - 1]` (as gint arithmetic); given the accumulation
invariant `filled ≤ capacity`, that access is inside the buffer exactly
when at least one byte has been accumulated, and a listing object
completing with zero accumulated bytes puts the index out of bounds
(index -1). -/
theorem listing_terminal_check_bounds (t : TransferData)
    (chunk : List Nat) (hfill : t.pending.length ≤ t.buffer_len)
    (hchunk : chunk.length ≤ DEFAULT_BUFFER_SIZE) :
    (get_xfer_listing_progress t (.ok chunk) true).checkedIndex =
      some ((t.pending.length : Int) + chunk.length - 1) ∧
    (∀ i c,
      (get_xfer_listing_progress t (.ok chunk) true).checkedIndex =
        some i →
      (get_xfer_listing_progress t (.ok chunk) true).checkCapacity =
        some c →
      ((indexInBounds i c ↔ 1 ≤ t.pending.length + chunk.length) ∧
       (t.pending = [] ∧ chunk = [] → ¬ indexInBounds i c))) := by
  have hidx : (get_xfer_listing_progress t (.ok chunk) true).checkedIndex =
      some ((t.pending.length : Int) + chunk.length - 1) := by
    by_cases hL : (t.pending ++ chunk).getLast? = some 0
    · simp only [get_xfer_listing_progress, if_true]
      rw [if_pos hL]
      simp [List.length_append]
    · simp only [get_xfer_listing_progress, if_true]
      rw [if_neg hL]
      simp [List.length_append]
  have hcap : ∀ c,
      (get_xfer_listing_progress t (.ok chunk) true).checkCapacity =
        some c →
      t.pending.length + chunk.length ≤ c := by
    intro c hc
    by_cases hL : (t.pending ++ chunk).getLast? = some 0
    · simp only [get_xfer_listing_progress, if_true] at hc
      rw [if_pos hL] at hc
      injection hc with hc
      subst hc
      simp only [DEFAULT_BUFFER_SIZE] at hchunk ⊢
      split_ifs <;> omega
    · simp only [get_xfer_listing_progress, if_true] at hc
      rw [if_neg hL] at hc
      injection hc with hc
      subst hc
      simp only [DEFAULT_BUFFER_SIZE] at hchunk ⊢
      split_ifs <;> omega
  refine ⟨hidx, ?_⟩
  intro i c hi hc
  rw [hidx] at hi
  injection hi with hi
  subst hi
  have hcle := hcap c hc
  constructor
  · constructor
    · rintro ⟨h0, _⟩
      omega
    · intro h1
      refine ⟨by omega, ?_⟩
      have : ((t.pending.length + chunk.length : Nat) : Int) ≤ (c : Int) :=
        by exact_mod_cast hcle
      push_cast at this ⊢
      omega
  · rintro ⟨h1, h2⟩
    rw [h1, h2]
    rintro ⟨h0, _⟩
    simp at h0

/-- Witness for C10: at two accumulated bytes and capacity 4096 the
check is in bounds; the zero-byte clause instantiates at the empty final
chunk on a fresh listing transfer. -/
theorem listing_terminal_check_bounds_witness :
    (get_xfer_listing_progress exListingMid (.ok [66]) true).checkedIndex =
      some 2 ∧
    (∀ i c,
      (get_xfer_listing_progress exListing (.ok []) true).checkedIndex =
        some i →
      (get_xfer_listing_progress exListing (.ok []) true).checkCapacity =
        some c →
      ¬ indexInBounds i c) := by
  constructor
  · have h := listing_terminal_check_bounds exListingMid [66]
      (by decide) (by decide)
    rw [h.1]
    rfl
  · intro i c hi hc
    have h := listing_terminal_check_bounds exListing []
      (by decide) (by decide)
    exact ((h.2 i c hi hc).2) ⟨rfl, rfl⟩

/-- Witness for C2's amended statement at a concrete completed step. -/
theorem xfer_cleared_only_by_abort_witness :
    (get_xfer_progress exGetNearDone (.ok [9, 9]) 4 2 0).state.xfer =
      some 7 ∧
    (transfer_abort
      (get_xfer_progress exGetNearDone (.ok [9, 9]) 4 2 0).state).events ≠
      [] ∧
    (transfer_abort (transfer_abort exGetNearDone).state).events = [] := by
  have h := xfer_cleared_only_by_abort exGetNearDone (.ok [9, 9]) 4 2 0
  refine ⟨?_, (h.2 (by decide) rfl).1, (h.2 (by decide) rfl).2.1⟩
  rw [h.1]
  rfl

end ObexTransfer
